import Mathlib

/-!
Shallow embedding of the budget-tracker application (streamlit_app.py).

Data model: expense entries and salary entries are rows of two CSV files.
Dates are modelled as strings; the application writes them in canonical
`YYYY-MM-DD` form, and `pd.to_datetime` is modelled by a validity check on
that form (an invalid string parses to `none`, the embedding of NaT).
`.dt.strftime` with a year-month format on a parsed canonical date is the
7-character prefix of the string.

A file on disk is `Option` of its parsed contents (`none` = file absent,
so `pd.read_csv` raises `FileNotFoundError`).  The salary CSV may lack the
`Pay Date` column (legacy files); this is column-level in pandas, so it is
modelled by a boolean flag on the whole file, and the `payDate` field of a
row is meaningful only when the flag is set.
-/

/-- One row of the expense file (`Date`, `Category`, `Amount Spent`,
`Budgeted Amount`).  Amounts are integers (the UI only produces
non-negative integers, but the store accepts any value). -/
structure ExpenseEntry where
  date : String
  category : String
  amountSpent : Int
  budgetedAmount : Int
deriving Repr, DecidableEq

/-- One row of the salary file (`Start Date`, `End Date`, `Salary`,
`Pay Date`). -/
structure SalaryEntry where
  startDate : String
  endDate : String
  salary : Int
  payDate : String
deriving Repr, DecidableEq

/-- Persisted salary CSV.  `hasPayDate` records whether the `Pay Date`
column is present; when it is `false` the `payDate` field of the rows is
not meaningful (legacy file shape). -/
structure SalaryCSV where
  hasPayDate : Bool
  rows : List SalaryEntry
deriving Repr, DecidableEq

/-- A loaded expense DataFrame: column labels plus rows. -/
structure ExpenseDF where
  columns : List String
  rows : List ExpenseEntry
deriving Repr, DecidableEq

/-- A loaded salary DataFrame: column labels plus rows. -/
structure SalaryDF where
  columns : List String
  rows : List SalaryEntry
deriving Repr, DecidableEq

/-- Numeric value of a digit character. -/
def digitVal (c : Char) : Nat := c.toNat - '0'.toNat

/-- A string is a valid date iff it has the canonical `YYYY-MM-DD` shape
with a month in 1..12 and a day in 1..31.  This models which strings
`pd.to_datetime` accepts; the application itself only ever writes
canonical dates. -/
def validDate (s : String) : Bool :=
  match s.data with
  | [y1, y2, y3, y4, h1, m1, m2, h2, d1, d2] =>
      y1.isDigit && y2.isDigit && y3.isDigit && y4.isDigit &&
      h1 == '-' && m1.isDigit && m2.isDigit && h2 == '-' &&
      d1.isDigit && d2.isDigit &&
      (let m := 10 * digitVal m1 + digitVal m2
       decide (1 ≤ m) && decide (m ≤ 12)) &&
      (let d := 10 * digitVal d1 + digitVal d2
       decide (1 ≤ d) && decide (d ≤ 31))
  | _ => false

/-- `pd.to_datetime` on one cell: `some` of the (canonical) date when the
string parses, `none` (NaT) otherwise. -/
def parseDate (s : String) : Option String :=
  if validDate s then some s else none

/-- `.dt.strftime` with a `%Y-%m` format on a canonical date: its
7-character `YYYY-MM` prefix. -/
def monthOf (s : String) : String := String.mk (s.data.take 7)

/-- Python `str.startswith`: the argument is a prefix of the character
sequence. -/
def strStartsWith (s p : String) : Bool := p.data.isPrefixOf s.data

/-- Executable lexicographic comparison of character sequences by Unicode
code point, as Python `sorted` compares strings. -/
def charListLt : List Char → List Char → Bool
  | _, [] => false
  | [], _ :: _ => true
  | a :: as, b :: bs =>
      if a.toNat < b.toNat then true
      else if b.toNat < a.toNat then false
      else charListLt as bs

/-- Executable lexicographic `<` on strings. -/
def strLt (a b : String) : Bool := charListLt a.data b.data

/-- `MONTHLY_INCOME` constant from the source. -/
def MONTHLY_INCOME : Int := 800

/-- Column labels of the expense file. -/
def expenseColumns : List String :=
  ["Date", "Category", "Amount Spent", "Budgeted Amount"]

/-- Column labels of the salary file. -/
def salaryColumns : List String :=
  ["Start Date", "End Date", "Salary", "Pay Date"]

/-- `load_data`: read the expense CSV; on `FileNotFoundError` return an
empty DataFrame with the expense columns. -/
def load_data : Option (List ExpenseEntry) → ExpenseDF
  | some rows => ⟨expenseColumns, rows⟩
  | none => ⟨expenseColumns, []⟩

/-- `load_salary_data`: read the salary CSV; if the `Pay Date` column is
missing, derive it as `pd.to_datetime` of `End Date` (modelled as copying
the `endDate` string); on `FileNotFoundError` return an empty DataFrame
with the salary columns. -/
def load_salary_data : Option SalaryCSV → SalaryDF
  | some csv =>
      if csv.hasPayDate then ⟨salaryColumns, csv.rows⟩
      else ⟨salaryColumns, csv.rows.map
        (fun r => SalaryEntry.mk r.startDate r.endDate r.salary r.endDate)⟩
  | none => ⟨salaryColumns, []⟩

/-- `load_salary_data` as a state transformer on the persisted file:
reading returns the DataFrame and leaves the file exactly as it was. -/
def load_salary_op (file : Option SalaryCSV) : SalaryDF × Option SalaryCSV :=
  (load_salary_data file, file)

/-- `save_data`: write the DataFrame rows out as the expense CSV. -/
def save_data (df : ExpenseDF) : Option (List ExpenseEntry) := some df.rows

/-- `save_salary_data`: write the DataFrame out as the salary CSV; a
written file always carries the `Pay Date` column. -/
def save_salary_data (df : SalaryDF) : Option SalaryCSV :=
  some ⟨true, df.rows⟩

/-- `add_entry`: load, append the new row at the end, save. -/
def add_entry (file : Option (List ExpenseEntry)) (e : ExpenseEntry) :
    Option (List ExpenseEntry) :=
  save_data ⟨expenseColumns, (load_data file).rows ++ [e]⟩

/-- `add_salary`: load, append the new row at the end, save. -/
def add_salary (file : Option SalaryCSV) (e : SalaryEntry) :
    Option SalaryCSV :=
  save_salary_data ⟨salaryColumns, (load_salary_data file).rows ++ [e]⟩

/-- Combined persistent state of the application: the two independent
files. -/
structure AppState where
  expenseFile : Option (List ExpenseEntry)
  salaryFile : Option SalaryCSV
deriving Repr, DecidableEq

/-- `add_entry` acting on the whole application state: only the expense
file is read and written. -/
def app_add_entry (s : AppState) (e : ExpenseEntry) : AppState :=
  AppState.mk (add_entry s.expenseFile e) s.salaryFile

/-- `add_salary` acting on the whole application state: only the salary
file is read and written. -/
def app_add_salary (s : AppState) (e : SalaryEntry) : AppState :=
  AppState.mk s.expenseFile (add_salary s.salaryFile e)

/-- `delete_confirmation`: depending on the flag, load the corresponding
file, drop the row labelled `index` (on a freshly loaded frame labels are
positions), `reset_index`, and save.  The other file is untouched. -/
def delete_confirmation (s : AppState) (index : Nat) (isSalary : Bool) :
    AppState :=
  if isSalary then
    AppState.mk s.expenseFile
      (save_salary_data ⟨salaryColumns,
        (load_salary_data s.salaryFile).rows.eraseIdx index⟩)
  else
    AppState.mk
      (save_data ⟨expenseColumns,
        (load_data s.expenseFile).rows.eraseIdx index⟩)
      s.salaryFile

/-- Insert a string into a sorted duplicate-free list, keeping it sorted
and duplicate-free. -/
def insertMonth (a : String) : List String → List String
  | [] => [a]
  | b :: t =>
      if strLt a b then a :: b :: t
      else if a == b then b :: t
      else b :: insertMonth a t

/-- `sorted(set(...))` / `sorted(....unique())`: the ascending
lexicographic sort of the distinct elements of a list of strings. -/
def sortDedup : List String → List String
  | [] => []
  | a :: t => insertMonth a (sortDedup t)

/-- `daily_months`: distinct `YYYY-MM` prefixes of the expense dates,
sorted ascending (line 133 of the source). -/
def daily_months (efile : Option (List ExpenseEntry)) : List String :=
  sortDedup ((load_data efile).rows.map (fun e => monthOf e.date))

/-- The salary rows surviving the NaT filter of lines 137-140: pay date
converted with `errors="coerce"`, rows whose pay date failed to parse
dropped. -/
def valid_salary_rows (sfile : Option SalaryCSV) : List SalaryEntry :=
  (load_salary_data sfile).rows.filter (fun e => (parseDate e.payDate).isSome)

/-- `salary_months`: distinct `YYYY-MM` truncations of the valid pay
dates, sorted ascending (line 143 of the source). -/
def salary_months (sfile : Option SalaryCSV) : List String :=
  sortDedup ((valid_salary_rows sfile).map (fun e => monthOf e.payDate))

/-- `available_months`: sorted deduplication of the two month lists
(line 146 of the source). -/
def available_months (efile : Option (List ExpenseEntry))
    (sfile : Option SalaryCSV) : List String :=
  sortDedup (daily_months efile ++ salary_months sfile)

/-- `pd.to_datetime` on a whole column without coercion: every cell must
parse, otherwise the conversion raises (modelled as `none`). -/
def convertColumn : List String → Option (List String)
  | [] => some []
  | d :: t =>
      match parseDate d, convertColumn t with
      | some v, some vs => some (v :: vs)
      | _, _ => none

/-- `get_total_salary_for_month`: reload the salary store, convert
`Start Date` and `End Date` with `pd.to_datetime` (no coercion, so an
unparsable date raises — modelled as `none`), then sum `Salary` over the
rows whose start date truncates to the requested month (lines 76-82 of
the source). -/
def get_total_salary_for_month (sfile : Option SalaryCSV) (month : String) :
    Option Int := do
  let rows := (load_salary_data sfile).rows
  let _ ← convertColumn (rows.map SalaryEntry.startDate)
  let _ ← convertColumn (rows.map SalaryEntry.endDate)
  pure (((rows.filter (fun e => monthOf e.startDate == month)).map
    SalaryEntry.salary).sum)

/-- `total_monthly_income`: the fixed base income plus the salary total
for the selected month (line 191 of the source). -/
def total_monthly_income (sfile : Option SalaryCSV) (month : String) :
    Option Int :=
  (get_total_salary_for_month sfile month).map (fun s => MONTHLY_INCOME + s)

/-- `selected_month_data`: the expense rows whose `Date` starts with the
selected month string (line 156 of the source). -/
def selected_month_data (efile : Option (List ExpenseEntry))
    (month : String) : List ExpenseEntry :=
  (load_data efile).rows.filter (fun e => strStartsWith e.date month)

/-- `groupby("Category")[col].sum()`: for each distinct category (pandas
sorts group keys ascending), the sum of `f` over the rows of that
category. -/
def groupSums (l : List ExpenseEntry) (f : ExpenseEntry → Int) :
    List (String × Int) :=
  (sortDedup (l.map ExpenseEntry.category)).map
    (fun c => (c, ((l.filter (fun e => e.category == c)).map f).sum))

/-- `total_spent_by_category` (line 174 of the source). -/
def total_spent_by_category (l : List ExpenseEntry) : List (String × Int) :=
  groupSums l ExpenseEntry.amountSpent

/-- `total_spent`: the sum of the per-category spent sums (line 175 of
the source). -/
def total_spent (l : List ExpenseEntry) : Int :=
  ((total_spent_by_category l).map Prod.snd).sum

/-- `total_budgeted`: the sum of the per-category budgeted sums (line 176
of the source). -/
def total_budgeted (l : List ExpenseEntry) : Int :=
  ((groupSums l ExpenseEntry.budgetedAmount).map Prod.snd).sum

/-- `remaining_budget` (line 177 of the source). -/
def remaining_budget (l : List ExpenseEntry) : Int :=
  MONTHLY_INCOME - total_spent l

/-- `remaining_savings` (line 178 of the source). -/
def remaining_savings (l : List ExpenseEntry) : Int :=
  MONTHLY_INCOME - total_spent l

/-- `salary_for_month`: the salary rows displayed for the selected month:
among the rows with a parsable pay date, those whose pay date truncates to
the month (line 198 of the source). -/
def salary_for_month (sfile : Option SalaryCSV) (month : String) :
    List SalaryEntry :=
  (valid_salary_rows sfile).filter (fun e => monthOf e.payDate == month)

/-!  Properties of the executable string order and of `sortDedup`. -/

theorem char_toNat_lt_iff {a b : Char} : a.toNat < b.toNat ↔ a < b := Iff.rfl

theorem char_eq_of_not_lt {a b : Char} (h1 : ¬ a.toNat < b.toNat)
    (h2 : ¬ b.toNat < a.toNat) : a = b := by
  apply Char.eq_of_val_eq
  apply UInt32.ext
  simp only [Char.toNat] at h1 h2
  omega

theorem charListLt_iff : ∀ x y : List Char,
    charListLt x y = true ↔ List.Lex (· < ·) x y := by
  intro x
  induction x with
  | nil =>
    intro y
    cases y with
    | nil => simp [charListLt]
    | cons b bs => simp [charListLt]; exact List.Lex.nil
  | cons a as ih =>
    intro y
    cases y with
    | nil => simp [charListLt]
    | cons b bs =>
      by_cases h1 : a.toNat < b.toNat
      · simp [charListLt, h1]
        exact List.Lex.rel (char_toNat_lt_iff.mp h1)
      · by_cases h2 : b.toNat < a.toNat
        · simp [charListLt, h1, h2]
          intro hlex
          cases hlex with
          | cons h => omega
          | rel h => exact absurd (char_toNat_lt_iff.mpr h) (by omega)
        · have hab : a = b := char_eq_of_not_lt h1 h2
          subst hab
          simp [charListLt, h1, h2]
          rw [ih bs]
          exact (List.Lex.cons_iff).symm

theorem strLt_iff {a b : String} : strLt a b = true ↔ a < b := by
  rw [strLt, charListLt_iff, String.lt_iff_toList_lt]
  exact Iff.rfl

theorem gt_of_not_strLt_not_beq {a b : String} (h1 : ¬ strLt a b = true)
    (h2 : ¬ (a == b) = true) : b < a := by
  rcases lt_trichotomy a b with h | h | h
  · exact absurd (strLt_iff.mpr h) h1
  · exact absurd (beq_iff_eq.mpr h) h2
  · exact h

theorem mem_insertMonth {m a : String} : ∀ {l : List String},
    m ∈ insertMonth a l ↔ m = a ∨ m ∈ l := by
  intro l
  induction l with
  | nil => simp [insertMonth]
  | cons b t ih =>
    by_cases h1 : strLt a b = true
    · simp [insertMonth, h1]
    · by_cases h2 : (a == b) = true
      · have hab : a = b := beq_iff_eq.mp h2
        subst hab
        simp [insertMonth, h1]
      · simp only [insertMonth, if_neg h1, if_neg h2, List.mem_cons, ih]
        tauto

theorem mem_sortDedup {m : String} : ∀ {l : List String},
    m ∈ sortDedup l ↔ m ∈ l := by
  intro l
  induction l with
  | nil => simp [sortDedup]
  | cons a t ih => simp [sortDedup, mem_insertMonth, ih]

theorem sorted_insertMonth {a : String} : ∀ {l : List String},
    l.Sorted (· < ·) → (insertMonth a l).Sorted (· < ·) := by
  intro l
  induction l with
  | nil => intro _; simp [insertMonth]
  | cons b t ih =>
    intro hs
    rw [List.sorted_cons] at hs
    by_cases h1 : strLt a b = true
    · rw [insertMonth, if_pos h1]
      refine List.sorted_cons.mpr ⟨?_, List.sorted_cons.mpr hs⟩
      intro x hx
      rcases List.mem_cons.mp hx with rfl | hx
      · exact strLt_iff.mp h1
      · exact lt_trans (strLt_iff.mp h1) (hs.1 x hx)
    · by_cases h2 : (a == b) = true
      · rw [insertMonth, if_neg h1, if_pos h2]
        exact List.sorted_cons.mpr hs
      · rw [insertMonth, if_neg h1, if_neg h2]
        refine List.sorted_cons.mpr ⟨?_, ih hs.2⟩
        intro x hx
        rcases mem_insertMonth.mp hx with rfl | hx
        · exact gt_of_not_strLt_not_beq h1 h2
        · exact hs.1 x hx

theorem sorted_sortDedup : ∀ (l : List String), (sortDedup l).Sorted (· < ·) := by
  intro l
  induction l with
  | nil => simp [sortDedup]
  | cons a t ih => exact sorted_insertMonth ih

theorem nodup_sortDedup (l : List String) : (sortDedup l).Nodup :=
  (sorted_sortDedup l).nodup

/-!  Grouping is a homomorphism for sums. -/

theorem sum_map_filter_not_add (l : List ExpenseEntry) (p : ExpenseEntry → Bool)
    (f : ExpenseEntry → Int) :
    ((l.filter p).map f).sum + ((l.filter (fun e => !p e)).map f).sum
      = (l.map f).sum := by
  induction l with
  | nil => simp
  | cons a t ih =>
    by_cases h : p a = true <;>
      simp only [List.filter_cons, h, Bool.not_true, Bool.not_false, if_true, if_false,
        List.map_cons, List.sum_cons, Bool.false_eq_true, Bool.true_eq_false] <;>
      omega

theorem sum_over_keys (f : ExpenseEntry → Int) :
    ∀ (keys : List String) (l : List ExpenseEntry), keys.Nodup →
      (∀ e ∈ l, e.category ∈ keys) →
      (keys.map (fun c =>
        ((l.filter (fun e => e.category == c)).map f).sum)).sum
        = (l.map f).sum := by
  intro keys
  induction keys with
  | nil =>
    intro l _ hall
    cases l with
    | nil => simp
    | cons a t => exact absurd (hall a (List.mem_cons_self a t)) (List.not_mem_nil _)
  | cons k ks ih =>
    intro l hnd hall
    have hnd2 := List.nodup_cons.mp hnd
    have hfilter : ∀ c ∈ ks, l.filter (fun e => e.category == c)
        = (l.filter (fun e => !(e.category == k))).filter
            (fun e => e.category == c) := by
      intro c hc
      rw [List.filter_filter]
      apply List.filter_congr
      intro e _
      cases hcat : (e.category == c)
      · simp
      · have hek : (e.category == k) = false := by
          have hc2 : e.category = c := beq_iff_eq.mp hcat
          have : c ≠ k := fun hck => hnd2.1 (hck ▸ hc)
          simp [hc2, this]
        simp [hek]
    have hall2 : ∀ e ∈ l.filter (fun e => !(e.category == k)), e.category ∈ ks := by
      intro e he
      rw [List.mem_filter] at he
      rcases List.mem_cons.mp (hall e he.1) with h | h
      · exfalso
        have := he.2
        simp [h] at this
      · exact h
    have hrest : (ks.map (fun c =>
        ((l.filter (fun e => e.category == c)).map f).sum)).sum
        = ((l.filter (fun e => !(e.category == k))).map f).sum := by
      rw [List.map_congr_left (fun c hc => by rw [hfilter c hc])]
      exact ih _ hnd2.2 hall2
    simp only [List.map_cons, List.sum_cons, hrest]
    exact sum_map_filter_not_add l (fun e => e.category == k) f

theorem convertColumn_eq_some : ∀ {l : List String},
    (∀ d ∈ l, validDate d = true) → convertColumn l = some l := by
  intro l
  induction l with
  | nil => intro _; rfl
  | cons a t ih =>
    intro h
    have ha : validDate a = true := h a (List.mem_cons_self a t)
    have ht := ih (fun d hd => h d (List.mem_cons_of_mem a hd))
    simp [convertColumn, parseDate, ha, ht]

/-!  The claims. -/

/-- C1: the month universe offered for selection is sorted ascending
lexicographically with no duplicates, and a month belongs to it exactly
when it is the `YYYY-MM` truncation of some expense entry date or the
`YYYY-MM` truncation of the pay date of some salary entry whose pay date
parses; salary entries with unparsable pay dates contribute nothing. -/
theorem available_months_is_sorted_union (efile : Option (List ExpenseEntry))
    (sfile : Option SalaryCSV) :
    (available_months efile sfile).Sorted (· < ·) ∧
    ∀ m : String, (m ∈ available_months efile sfile ↔
      ((∃ e ∈ (load_data efile).rows, monthOf e.date = m) ∨
       (∃ s ∈ (load_salary_data sfile).rows,
          (parseDate s.payDate).isSome = true ∧ monthOf s.payDate = m))) := by
  refine ⟨sorted_sortDedup _, fun m => ?_⟩
  simp only [available_months, daily_months, salary_months, valid_salary_rows,
    mem_sortDedup, List.mem_append, List.mem_map, List.mem_filter]
  constructor
  · rintro (⟨e, he, rfl⟩ | ⟨s, ⟨hs, hv⟩, rfl⟩)
    · exact Or.inl ⟨e, he, rfl⟩
    · exact Or.inr ⟨s, hs, hv, rfl⟩
  · rintro (⟨e, he, rfl⟩ | ⟨s, hs, hv, rfl⟩)
    · exact Or.inl ⟨e, he, rfl⟩
    · exact Or.inr ⟨s, ⟨hs, hv⟩, rfl⟩

/-- C2: when every start and end date in the salary store parses, the
salary total for a month is the sum of `salary` over exactly the entries
whose start date truncates to that month (the pay date is not consulted),
and the total monthly income is the fixed base income plus that total. -/
theorem total_salary_uses_start_date (sfile : Option SalaryCSV) (month : String)
    (h : ∀ e ∈ (load_salary_data sfile).rows,
      validDate e.startDate = true ∧ validDate e.endDate = true) :
    get_total_salary_for_month sfile month =
      some ((((load_salary_data sfile).rows.filter
        (fun e => monthOf e.startDate == month)).map SalaryEntry.salary).sum) ∧
    total_monthly_income sfile month =
      some (MONTHLY_INCOME + (((load_salary_data sfile).rows.filter
        (fun e => monthOf e.startDate == month)).map SalaryEntry.salary).sum) := by
  have hs : convertColumn ((load_salary_data sfile).rows.map SalaryEntry.startDate)
      = some ((load_salary_data sfile).rows.map SalaryEntry.startDate) :=
    convertColumn_eq_some (by
      intro d hd
      rcases List.mem_map.mp hd with ⟨e, he, rfl⟩
      exact (h e he).1)
  have he : convertColumn ((load_salary_data sfile).rows.map SalaryEntry.endDate)
      = some ((load_salary_data sfile).rows.map SalaryEntry.endDate) :=
    convertColumn_eq_some (by
      intro d hd
      rcases List.mem_map.mp hd with ⟨e, hee, rfl⟩
      exact (h e hee).2)
  constructor
  · simp [get_total_salary_for_month, hs, he]
  · simp [total_monthly_income, get_total_salary_for_month, hs, he]

/-- Witness for C2: one salary entry for the period 2024-06-01 to
2024-06-14 of 500, paid 2024-06-15; the June total is 500 and the total
income 1300. -/
theorem total_salary_uses_start_date_witness :
    get_total_salary_for_month
      (some (SalaryCSV.mk true
        [SalaryEntry.mk "2024-06-01" "2024-06-14" 500 "2024-06-15"])) "2024-06"
      = some 500 ∧
    total_monthly_income
      (some (SalaryCSV.mk true
        [SalaryEntry.mk "2024-06-01" "2024-06-14" 500 "2024-06-15"])) "2024-06"
      = some 1300 := by
  have h := total_salary_uses_start_date
    (some (SalaryCSV.mk true
      [SalaryEntry.mk "2024-06-01" "2024-06-14" 500 "2024-06-15"])) "2024-06"
    (by decide)
  exact ⟨h.1.trans (by decide), h.2.trans (by decide)⟩

/-- C3: for a non-empty month filter, `remaining_budget` is the base
income minus `total_spent`, `remaining_savings` is computed by the
identical formula, and on the single entry
`{2024-06-01, Food, 20, 50}` filtered to `2024-06` the totals are
`total_spent = 20`, `total_budgeted = 50`,
`remaining_budget = 800 - 20 = 780`. -/
theorem remaining_budget_equals_savings (efile : Option (List ExpenseEntry))
    (month : String) (h : selected_month_data efile month ≠ []) :
    remaining_budget (selected_month_data efile month)
        = MONTHLY_INCOME - total_spent (selected_month_data efile month) ∧
    remaining_savings (selected_month_data efile month)
        = remaining_budget (selected_month_data efile month) ∧
    (total_spent (selected_month_data
        (some [ExpenseEntry.mk "2024-06-01" "Food" 20 50]) "2024-06") = 20 ∧
     total_budgeted (selected_month_data
        (some [ExpenseEntry.mk "2024-06-01" "Food" 20 50]) "2024-06") = 50 ∧
     remaining_budget (selected_month_data
        (some [ExpenseEntry.mk "2024-06-01" "Food" 20 50]) "2024-06") = 780) := by
  exact ⟨rfl, rfl, by decide, by decide, by decide⟩

/-- Witness for C3: the scenario file itself is a non-empty June
filter. -/
theorem remaining_budget_equals_savings_witness :
    remaining_budget (selected_month_data
        (some [ExpenseEntry.mk "2024-06-01" "Food" 20 50]) "2024-06")
      = MONTHLY_INCOME - total_spent (selected_month_data
        (some [ExpenseEntry.mk "2024-06-01" "Food" 20 50]) "2024-06") ∧
    remaining_savings (selected_month_data
        (some [ExpenseEntry.mk "2024-06-01" "Food" 20 50]) "2024-06")
      = remaining_budget (selected_month_data
        (some [ExpenseEntry.mk "2024-06-01" "Food" 20 50]) "2024-06") := by
  have h := remaining_budget_equals_savings
    (some [ExpenseEntry.mk "2024-06-01" "Food" 20 50]) "2024-06" (by decide)
  exact ⟨h.1, h.2.1⟩

/-- C4: for a non-empty month filter, the per-category spent sums add up
to `total_spent`, which is the flat sum of `amountSpent`, and
`total_budgeted` (a sum of per-category group sums) is the flat sum of
`budgetedAmount`: grouping is a homomorphism for sums. -/
theorem group_sums_are_flat_sums (efile : Option (List ExpenseEntry))
    (month : String) (h : selected_month_data efile month ≠ []) :
    ((total_spent_by_category (selected_month_data efile month)).map
        Prod.snd).sum
      = ((selected_month_data efile month).map ExpenseEntry.amountSpent).sum ∧
    total_spent (selected_month_data efile month)
      = ((selected_month_data efile month).map ExpenseEntry.amountSpent).sum ∧
    total_budgeted (selected_month_data efile month)
      = ((selected_month_data efile month).map ExpenseEntry.budgetedAmount).sum := by
  have key : ∀ f : ExpenseEntry → Int,
      ((groupSums (selected_month_data efile month) f).map Prod.snd).sum
        = ((selected_month_data efile month).map f).sum := by
    intro f
    unfold groupSums
    rw [List.map_map]
    exact sum_over_keys f _ _ (nodup_sortDedup _)
      (fun e hee => mem_sortDedup.mpr (List.mem_map_of_mem _ hee))
  exact ⟨key _, key _, key _⟩

/-- Witness for C4: two June entries in two categories; both group-sum
identities evaluate on them. -/
theorem group_sums_are_flat_sums_witness :
    ((total_spent_by_category (selected_month_data
        (some [ExpenseEntry.mk "2024-06-01" "Food" 20 50,
               ExpenseEntry.mk "2024-06-02" "Transport" 7 20]) "2024-06")).map
        Prod.snd).sum
      = ((selected_month_data
        (some [ExpenseEntry.mk "2024-06-01" "Food" 20 50,
               ExpenseEntry.mk "2024-06-02" "Transport" 7 20]) "2024-06").map
        ExpenseEntry.amountSpent).sum ∧
    total_spent (selected_month_data
        (some [ExpenseEntry.mk "2024-06-01" "Food" 20 50,
               ExpenseEntry.mk "2024-06-02" "Transport" 7 20]) "2024-06")
      = ((selected_month_data
        (some [ExpenseEntry.mk "2024-06-01" "Food" 20 50,
               ExpenseEntry.mk "2024-06-02" "Transport" 7 20]) "2024-06").map
        ExpenseEntry.amountSpent).sum ∧
    total_budgeted (selected_month_data
        (some [ExpenseEntry.mk "2024-06-01" "Food" 20 50,
               ExpenseEntry.mk "2024-06-02" "Transport" 7 20]) "2024-06")
      = ((selected_month_data
        (some [ExpenseEntry.mk "2024-06-01" "Food" 20 50,
               ExpenseEntry.mk "2024-06-02" "Transport" 7 20]) "2024-06").map
        ExpenseEntry.budgetedAmount).sum :=
  group_sums_are_flat_sums
    (some [ExpenseEntry.mk "2024-06-01" "Food" 20 50,
           ExpenseEntry.mk "2024-06-02" "Transport" 7 20]) "2024-06" (by decide)

/-- C5: loading a salary file without the pay-date column derives each
record's pay date by copying that record's end date, and the load leaves
the persisted file unchanged, so the derivation happens again on every
load. -/
theorem load_derives_missing_pay_date (csv : SalaryCSV)
    (h : csv.hasPayDate = false) :
    (load_salary_data (some csv)).rows
        = csv.rows.map (fun r =>
            SalaryEntry.mk r.startDate r.endDate r.salary r.endDate) ∧
    (load_salary_op (some csv)).2 = some csv := by
  constructor
  · simp [load_salary_data, h]
  · rfl

/-- Witness for C5: a legacy record with end date 2024-07-01 loads with
derived pay date 2024-07-01 and the file is unchanged. -/
theorem load_derives_missing_pay_date_witness :
    (load_salary_data (some (SalaryCSV.mk false
        [SalaryEntry.mk "2024-06-17" "2024-07-01" 500 ""]))).rows
      = [SalaryEntry.mk "2024-06-17" "2024-07-01" 500 "2024-07-01"] ∧
    (load_salary_op (some (SalaryCSV.mk false
        [SalaryEntry.mk "2024-06-17" "2024-07-01" 500 ""]))).2
      = some (SalaryCSV.mk false
        [SalaryEntry.mk "2024-06-17" "2024-07-01" 500 ""]) := by
  have h := load_derives_missing_pay_date
    (SalaryCSV.mk false [SalaryEntry.mk "2024-06-17" "2024-07-01" 500 ""]) rfl
  exact ⟨h.1.trans (by decide), h.2⟩

/-- C6: when no persisted file exists, both loaders return an empty
collection with the correct column shape instead of failing. -/
theorem load_missing_file_gives_empty_frame :
    load_data none
      = ExpenseDF.mk ["Date", "Category", "Amount Spent", "Budgeted Amount"] [] ∧
    load_salary_data none
      = SalaryDF.mk ["Start Date", "End Date", "Salary", "Pay Date"] [] :=
  ⟨rfl, rfl⟩

/-- C7: for both stores, loading immediately after appending an entry
returns the previously loaded sequence with the new entry at the end. -/
theorem load_after_append (efile : Option (List ExpenseEntry))
    (sfile : Option SalaryCSV) (e : ExpenseEntry) (s : SalaryEntry) :
    (load_data (add_entry efile e)).rows = (load_data efile).rows ++ [e] ∧
    (load_salary_data (add_salary sfile s)).rows
      = (load_salary_data sfile).rows ++ [s] :=
  ⟨rfl, rfl⟩

/-- C8: deleting an in-range index from either store and reloading yields
the previous sequence with the entry formerly at that position removed:
the prefix before it and the suffix after it survive in order, and the
length drops by one. -/
theorem delete_removes_exactly_index (st : AppState) (i j : Nat)
    (hi : i < (load_data st.expenseFile).rows.length)
    (hj : j < (load_salary_data st.salaryFile).rows.length) :
    ((load_data (delete_confirmation st i false).expenseFile).rows
        = (load_data st.expenseFile).rows.take i
          ++ (load_data st.expenseFile).rows.drop (i + 1) ∧
     (load_data (delete_confirmation st i false).expenseFile).rows.length
        = (load_data st.expenseFile).rows.length - 1) ∧
    ((load_salary_data (delete_confirmation st j true).salaryFile).rows
        = (load_salary_data st.salaryFile).rows.take j
          ++ (load_salary_data st.salaryFile).rows.drop (j + 1) ∧
     (load_salary_data (delete_confirmation st j true).salaryFile).rows.length
        = (load_salary_data st.salaryFile).rows.length - 1) := by
  have h1 : (load_data (delete_confirmation st i false).expenseFile).rows
      = (load_data st.expenseFile).rows.eraseIdx i := rfl
  have h2 : (load_salary_data (delete_confirmation st j true).salaryFile).rows
      = (load_salary_data st.salaryFile).rows.eraseIdx j := rfl
  refine ⟨⟨?_, ?_⟩, ?_, ?_⟩
  · rw [h1, List.eraseIdx_eq_take_drop_succ]
  · rw [h1]
    have := List.length_eraseIdx_add_one hi
    omega
  · rw [h2, List.eraseIdx_eq_take_drop_succ]
  · rw [h2]
    have := List.length_eraseIdx_add_one hj
    omega

/-- Witness for C8: stores of two expense entries and one salary entry;
deleting index 0 of each leaves the expected one- and zero-entry
sequences. -/
theorem delete_removes_exactly_index_witness :
    ((load_data (delete_confirmation
        (AppState.mk
          (some [ExpenseEntry.mk "2024-06-01" "Food" 20 50,
                 ExpenseEntry.mk "2024-06-02" "Transport" 7 20])
          (some (SalaryCSV.mk true
            [SalaryEntry.mk "2024-06-01" "2024-06-14" 500 "2024-06-15"])))
        0 false).expenseFile).rows
        = (load_data (some [ExpenseEntry.mk "2024-06-01" "Food" 20 50,
            ExpenseEntry.mk "2024-06-02" "Transport" 7 20])).rows.take 0
          ++ (load_data (some [ExpenseEntry.mk "2024-06-01" "Food" 20 50,
            ExpenseEntry.mk "2024-06-02" "Transport" 7 20])).rows.drop (0 + 1) ∧
     (load_data (delete_confirmation
        (AppState.mk
          (some [ExpenseEntry.mk "2024-06-01" "Food" 20 50,
                 ExpenseEntry.mk "2024-06-02" "Transport" 7 20])
          (some (SalaryCSV.mk true
            [SalaryEntry.mk "2024-06-01" "2024-06-14" 500 "2024-06-15"])))
        0 false).expenseFile).rows.length
        = (load_data (some [ExpenseEntry.mk "2024-06-01" "Food" 20 50,
            ExpenseEntry.mk "2024-06-02" "Transport" 7 20])).rows.length - 1) ∧
    ((load_salary_data (delete_confirmation
        (AppState.mk
          (some [ExpenseEntry.mk "2024-06-01" "Food" 20 50,
                 ExpenseEntry.mk "2024-06-02" "Transport" 7 20])
          (some (SalaryCSV.mk true
            [SalaryEntry.mk "2024-06-01" "2024-06-14" 500 "2024-06-15"])))
        0 true).salaryFile).rows
        = (load_salary_data (some (SalaryCSV.mk true
            [SalaryEntry.mk "2024-06-01" "2024-06-14" 500 "2024-06-15"]))).rows.take 0
          ++ (load_salary_data (some (SalaryCSV.mk true
            [SalaryEntry.mk "2024-06-01" "2024-06-14" 500 "2024-06-15"]))).rows.drop (0 + 1) ∧
     (load_salary_data (delete_confirmation
        (AppState.mk
          (some [ExpenseEntry.mk "2024-06-01" "Food" 20 50,
                 ExpenseEntry.mk "2024-06-02" "Transport" 7 20])
          (some (SalaryCSV.mk true
            [SalaryEntry.mk "2024-06-01" "2024-06-14" 500 "2024-06-15"])))
        0 true).salaryFile).rows.length
        = (load_salary_data (some (SalaryCSV.mk true
            [SalaryEntry.mk "2024-06-01" "2024-06-14" 500 "2024-06-15"]))).rows.length - 1) :=
  delete_removes_exactly_index
    (AppState.mk
      (some [ExpenseEntry.mk "2024-06-01" "Food" 20 50,
             ExpenseEntry.mk "2024-06-02" "Transport" 7 20])
      (some (SalaryCSV.mk true
        [SalaryEntry.mk "2024-06-01" "2024-06-14" 500 "2024-06-15"])))
    0 0 (by decide) (by decide)

/-- C9: a salary entry with an unparsable pay date but a start date in
the selected month is excluded from the valid-pay-date rows (hence from
the month universe and the per-month display) yet is kept by the
start-date filter that the salary total sums over; on a concrete store
with one such entry the June total is 500 while the salary month list and
the June display are empty. -/
theorem invalid_pay_date_still_counted (sfile : Option SalaryCSV)
    (month : String) (e : SalaryEntry)
    (he : e ∈ (load_salary_data sfile).rows)
    (hp : parseDate e.payDate = none)
    (hm : monthOf e.startDate = month) :
    e ∉ valid_salary_rows sfile ∧
    e ∉ salary_for_month sfile month ∧
    e ∈ (load_salary_data sfile).rows.filter
        (fun x => monthOf x.startDate == month) ∧
    (get_total_salary_for_month (some (SalaryCSV.mk true
        [SalaryEntry.mk "2024-06-01" "2024-06-14" 500 "not-a-date"])) "2024-06"
      = some 500 ∧
     salary_months (some (SalaryCSV.mk true
        [SalaryEntry.mk "2024-06-01" "2024-06-14" 500 "not-a-date"])) = [] ∧
     salary_for_month (some (SalaryCSV.mk true
        [SalaryEntry.mk "2024-06-01" "2024-06-14" 500 "not-a-date"])) "2024-06"
      = []) := by
  have hvalid : e ∉ valid_salary_rows sfile := by
    intro hmem
    rw [valid_salary_rows, List.mem_filter, hp] at hmem
    simp at hmem
  refine ⟨hvalid, ?_, ?_, by decide, by decide, by decide⟩
  · intro hmem
    exact hvalid (List.mem_filter.mp hmem).1
  · rw [List.mem_filter]
    refine ⟨he, ?_⟩
    rw [hm]
    simp

/-- Witness for C9: the concrete store of the claim, with the single
entry whose pay date does not parse. -/
theorem invalid_pay_date_still_counted_witness :
    SalaryEntry.mk "2024-06-01" "2024-06-14" 500 "not-a-date"
      ∉ valid_salary_rows (some (SalaryCSV.mk true
        [SalaryEntry.mk "2024-06-01" "2024-06-14" 500 "not-a-date"])) ∧
    SalaryEntry.mk "2024-06-01" "2024-06-14" 500 "not-a-date"
      ∉ salary_for_month (some (SalaryCSV.mk true
        [SalaryEntry.mk "2024-06-01" "2024-06-14" 500 "not-a-date"])) "2024-06" ∧
    SalaryEntry.mk "2024-06-01" "2024-06-14" 500 "not-a-date"
      ∈ (load_salary_data (some (SalaryCSV.mk true
        [SalaryEntry.mk "2024-06-01" "2024-06-14" 500 "not-a-date"]))).rows.filter
        (fun x => monthOf x.startDate == "2024-06") := by
  have h := invalid_pay_date_still_counted
    (some (SalaryCSV.mk true
      [SalaryEntry.mk "2024-06-01" "2024-06-14" 500 "not-a-date"]))
    "2024-06" (SalaryEntry.mk "2024-06-01" "2024-06-14" 500 "not-a-date")
    (by decide) (by decide) (by decide)
  exact ⟨h.1, h.2.1, h.2.2.1⟩

/-- C10: each store's mutations are confined to its own file: appending
or deleting an expense entry leaves the salary file unchanged, and
appending or deleting a salary entry leaves the expense file
unchanged. -/
theorem mutations_do_not_cross_stores (st : AppState) (e : ExpenseEntry)
    (s : SalaryEntry) (i j : Nat) :
    (app_add_entry st e).salaryFile = st.salaryFile ∧
    (app_add_salary st s).expenseFile = st.expenseFile ∧
    (delete_confirmation st i false).salaryFile = st.salaryFile ∧
    (delete_confirmation st j true).expenseFile = st.expenseFile :=
  ⟨rfl, rfl, rfl, rfl⟩
